import Mathlib

/-!
Shallow embedding of the Kanboard MCP server's connection and execution layer
(`src/kanboard_mcp/client.py`) and of its configuration URL normalization
(`src/kanboard_mcp/config.py`), together with theorems settling the spec's
claims about retry, reconnection, error classification and normalization.

Modelling conventions:
* Python exceptions become explicit values.  A raw failure from a transport
  invocation is either a `kanboard.ClientError` instance (constructor
  `Exc.clientErr`, carrying its message and optional `code` attribute) or any
  other `Exception` (constructor `Exc.other`).
* Python's `except` clause chain is embedded as an if-chain tested in source
  order: the first clause whose class matches handles the exception.  The
  source's retry loop contains two `except kanboard.ClientError` clauses; the
  second is kept in the embedding (as a second test of the same predicate) and
  is consequently unreachable, exactly as in the source.
* Errors raised by the client itself (`KanboardClientError` hierarchy) become
  the `KBError` type; `execute` returns `Except KBError α`.
* Effects are made observable by threading a `RunState` that counts transport
  invocations, reconnect attempts (disconnect+connect pairs performed inside
  the retry loop), `time.sleep` calls, and `connect()` calls, and that records
  `last_exception`.
* The transport and the connection environment are a pair of oracle functions
  (`Env`): `call i` is the outcome of the i-th invocation of the requested
  method, `connectResult i` the outcome of the i-th `connect()` attempt.
-/

/-- A substring test on character lists: `containsSub pat s` is true iff `pat`
occurs contiguously in `s`.  Models Python's `pat in s`. -/
def containsSub (pat : List Char) : List Char → Bool
  | [] => List.isPrefixOf pat []
  | c :: t => List.isPrefixOf pat (c :: t) || containsSub pat t

/-- Model of Python `s.lower()` (ASCII case folding, as used on error
messages). -/
def lowerChars (s : String) : List Char := s.data.map Char.toLower

/-- `"authentication" in str(e).lower() or "unauthorized" in str(e).lower()`
(client.py line 117). -/
def authIndicated (msg : String) : Bool :=
  containsSub "authentication".data (lowerChars msg) ||
  containsSub "unauthorized".data (lowerChars msg)

/-- `hasattr(e, 'code') and 400 <= e.code < 500` (client.py line 121), on the
optional `code` attribute. -/
def code4xx : Option Int → Bool
  | some c => decide (400 ≤ c) && decide (c < 500)
  | none => false

/-- A raw Python exception as seen by the retry loop's handler chain:
a `kanboard.ClientError` (message plus optional `code` attribute) or any
other `Exception` (message only). -/
inductive Exc where
  | clientErr (msg : String) (code : Option Int)
  | other (msg : String)
deriving DecidableEq, Repr

/-- `isinstance(e, kanboard.ClientError)`. -/
def isClientErrorExc : Exc → Bool
  | Exc.clientErr _ _ => true
  | Exc.other _ => false

/-- `str(e)`. -/
def excMsg : Exc → String
  | Exc.clientErr msg _ => msg
  | Exc.other msg => msg

/-- `hasattr(e, 'code') and 400 <= e.code < 500` on a raw exception. -/
def has4xxCode : Exc → Bool
  | Exc.clientErr _ code => code4xx code
  | Exc.other _ => false

/-- A failure is retryable when the first handler clause neither re-raises it
as an authentication error nor as a 4xx API error: a `kanboard.ClientError`
with no authentication indication and no 4xx code, or any other exception. -/
def retryableExc : Exc → Bool
  | Exc.clientErr msg code => !authIndicated msg && !code4xx code
  | Exc.other _ => true

/-- The `KanboardClientError` exception hierarchy of client.py
(`KanboardConnectionError`, `KanboardAuthenticationError`, `KanboardAPIError`,
and the base `KanboardClientError` itself), with the carried message. -/
inductive KBError where
  | connection (msg : String)
  | authentication (msg : String)
  | api (msg : String)
  | client (msg : String)
deriving DecidableEq, Repr

/-- `str(e)` of a raised `KanboardClientError`. -/
def kbMsg : KBError → String
  | KBError.connection m => m
  | KBError.authentication m => m
  | KBError.api m => m
  | KBError.client m => m

/-- The mutable connection state of `KanboardClient`: `hasClient` models
`self._client is not None`, `connected` models `self._connected`. -/
structure ClientState where
  hasClient : Bool
  connected : Bool
deriving DecidableEq, Repr

/-- `KanboardClient.disconnect` (client.py lines 81-85): clears the handle and
the flag unconditionally. -/
def disconnect (_s : ClientState) : ClientState :=
  { hasClient := false, connected := false }

/-- `KanboardClient.is_connected` (client.py lines 87-89):
`self._connected and self._client is not None`. -/
def is_connected (s : ClientState) : Bool :=
  s.connected && s.hasClient

/-- The flag invariant of `KanboardClient`: `self._connected` is set only
while a transport handle exists.  It holds for the freshly constructed
client (`__init__`, client.py lines 38-42, sets `_client = None` and
`_connected = False`) and is preserved by every operation, because
`self._connected = True` is written only at line 71, immediately after
`self._client` was assigned, and `disconnect` clears both together. -/
def flagInv (s : ClientState) : Bool := !s.connected || s.hasClient

/-- Outcome of one `connect()` attempt as determined by the environment:
`_create_client` raises (`createFail`), or the client is created and the
`get_me` probe returns a user payload (`ok`), returns `None` (`noneResult`),
raises `kanboard.ClientError` (`clientErr`), or raises any other exception
(`otherExc`). -/
inductive ConnectResult where
  | createFail (msg : String)
  | ok (name : String)
  | noneResult
  | clientErr (msg : String)
  | otherExc (msg : String)
deriving DecidableEq, Repr

/-- `KanboardClient.connect` (client.py lines 59-79).  No-op when already
connected with a handle.  Otherwise `_create_client` either raises a
`KanboardConnectionError` (re-wrapped by connect's generic handler, with
`self._client` left untouched) or assigns `self._client`; then the `get_me`
probe decides the outcome.  `self._connected` is written only on success
(line 71): no failure path touches it.  Note that the
`KanboardAuthenticationError` raised for a `None` result is itself caught by
`except Exception` and re-wrapped as a `KanboardConnectionError`. -/
def connect (r : ConnectResult) (s : ClientState) : ClientState × Option KBError :=
  if s.connected && s.hasClient then (s, none)
  else
    match r with
    | ConnectResult.createFail msg =>
        (s, some (KBError.connection
          ("Connection failed: Failed to create Kanboard client: " ++ msg)))
    | ConnectResult.ok _ =>
        ({ hasClient := true, connected := true }, none)
    | ConnectResult.noneResult =>
        ({ s with hasClient := true },
         some (KBError.connection
          "Connection failed: Authentication failed - invalid credentials"))
    | ConnectResult.clientErr msg =>
        ({ s with hasClient := true },
         some (KBError.authentication ("Authentication failed: " ++ msg)))
    | ConnectResult.otherExc msg =>
        ({ s with hasClient := true },
         some (KBError.connection ("Connection failed: " ++ msg)))

/-- `KanboardConfig.validate_url` (config.py lines 19-34), on the URL string.
Checks emptiness, the scheme, and normalizes the RPC suffix; `Except.error`
models the raised `ValueError`. -/
def validate_url (v : String) : Except String String :=
  if v = "" then Except.error "Kanboard URL is required"
  else if !(List.isPrefixOf "http://".data v.data ||
            List.isPrefixOf "https://".data v.data) then
    Except.error "URL must start with http:// or https://"
  else if !(List.isSuffixOf "/jsonrpc.php".data v.data) then
    if List.isSuffixOf "/".data v.data then Except.ok (v ++ "jsonrpc.php")
    else Except.ok (v ++ "/jsonrpc.php")
  else Except.ok v

/-- Outcome of one invocation of the requested transport method: a returned
value, or a raised exception. -/
inductive CallOutcome (α : Type) where
  | ok (v : α)
  | fail (e : Exc)
deriving DecidableEq, Repr

/-- The environment of one `_execute_with_retry` run: `call i` is the outcome
of the i-th invocation of the requested method on the transport handle
(counting from 0), `connectResult i` the outcome of the i-th `connect()`
attempt. -/
structure Env (α : Type) where
  call : Nat → CallOutcome α
  connectResult : Nat → ConnectResult

/-- Observable effects of one `_execute_with_retry` run, threaded through the
loop: the client state, the number of transport invocations of the requested
method, the number of reconnects (disconnect+connect pairs inside the loop),
the number of `time.sleep(retry_delay)` calls, the number of `connect()`
calls consumed from the environment, and `last_exception`. -/
structure RunState where
  cs : ClientState
  invocations : Nat
  reconnects : Nat
  sleeps : Nat
  connects : Nat
  lastExc : Option Exc
deriving DecidableEq, Repr

/-- The delay step at the end of a loop iteration (client.py lines 139-141):
`if attempt < max_retries: time.sleep(retry_delay)`.  `isLast` is
`attempt == max_retries`. -/
def sleepUnlessLast (isLast : Bool) (st : RunState) : RunState :=
  if isLast then st else { st with sleeps := st.sleeps + 1 }

/-- Result of one iteration of the retry loop: return/raise (`done`), or
proceed to the next iteration (`next`). -/
inductive StepOut (α : Type) where
  | done (r : Except KBError α) (st : RunState)
  | next (st : RunState)

/-- One iteration of the `for attempt in range(max_retries + 1)` loop of
`_execute_with_retry` (client.py lines 98-141).  The `except` clauses are
tested in source order; the second `except kanboard.ClientError` clause
(lines 124-133, the reconnect branch) repeats the first clause's class test
and is therefore unreachable, exactly as in the source. -/
def attemptStep (env : Env α) (isLast : Bool) (st : RunState) : StepOut α :=
  if st.cs.hasClient then
    match env.call st.invocations with
    | CallOutcome.ok v =>
        StepOut.done (Except.ok v) { st with invocations := st.invocations + 1 }
    | CallOutcome.fail e =>
        let st1 := { st with invocations := st.invocations + 1, lastExc := some e }
        if isClientErrorExc e then
          -- first `except kanboard.ClientError` clause (lines 112-122)
          if authIndicated (excMsg e) then
            StepOut.done (Except.error (KBError.authentication
              ("Authentication failed: " ++ excMsg e))) st1
          else if has4xxCode e then
            StepOut.done (Except.error (KBError.api
              ("API error: " ++ excMsg e))) st1
          else
            StepOut.next (sleepUnlessLast isLast st1)
        else if isClientErrorExc e then
          -- second `except kanboard.ClientError` clause (lines 124-133):
          -- disconnect + connect, swallowing any error the reconnect raises
          let cs2 := (connect (env.connectResult st1.connects) (disconnect st1.cs)).1
          StepOut.next (sleepUnlessLast isLast
            { st1 with cs := cs2, reconnects := st1.reconnects + 1,
                       connects := st1.connects + 1 })
        else
          -- `except Exception` clause (lines 135-137)
          StepOut.next (sleepUnlessLast isLast st1)
  else
    -- `if not self._client: raise KanboardConnectionError("Client not
    -- connected")` (lines 100-101); this raise is itself caught by the
    -- generic `except Exception` clause, setting last_exception
    StepOut.next (sleepUnlessLast isLast
      { st with lastExc := some (Exc.other "Client not connected") })

/-- The retry loop, iterating `attemptStep` over the `remaining` iterations
still to run; an iteration is the last one exactly when `remaining = 1`. -/
def runAttempts (env : Env α) : Nat → RunState → Option (Except KBError α) × RunState
  | 0, st => (none, st)
  | Nat.succ rem, st =>
      match attemptStep env (rem == 0) st with
      | StepOut.done r st1 => (some r, st1)
      | StepOut.next st1 => runAttempts env rem st1

/-- The terminal raise after the loop exhausts all attempts
(client.py lines 143-152).  The `elif isinstance(last_exception,
kanboard.ClientError)` at line 147 repeats the test at line 145 and is
therefore unreachable, exactly as in the source. -/
def terminalError (methodName : String) (max_retries : Nat) : Option Exc → KBError
  | some e =>
      if isClientErrorExc e then
        KBError.api ("API call " ++ methodName ++ " failed after " ++
          toString (max_retries + 1) ++ " attempts: " ++ excMsg e)
      else if isClientErrorExc e then
        KBError.connection ("Connection failed for " ++ methodName ++ " after " ++
          toString (max_retries + 1) ++ " attempts: " ++ excMsg e)
      else
        KBError.client ("Unexpected error in " ++ methodName ++ " after " ++
          toString (max_retries + 1) ++ " attempts: " ++ excMsg e)
  | none =>
      KBError.client ("Method " ++ methodName ++ " failed after " ++
        toString (max_retries + 1) ++ " attempts")

/-- The loop of `_execute_with_retry` together with its terminal raise:
`max_retries + 1` iterations, then `terminalError` if none returned. -/
def runLoop (env : Env α) (max_retries : Nat) (methodName : String)
    (st0 : RunState) : Except KBError α × RunState :=
  match runAttempts env (max_retries + 1) st0 with
  | (some r, st) => (r, st)
  | (none, st) => (Except.error (terminalError methodName max_retries st.lastExc), st)

/-- `KanboardClient._execute_with_retry` (client.py lines 91-152): connect if
not connected (propagating a connect failure), then run the retry loop for
`max_retries + 1` attempts, raising the terminal error if it exhausts. -/
def execute_with_retry (env : Env α) (max_retries : Nat) (methodName : String)
    (cs : ClientState) : Except KBError α × RunState :=
  if is_connected cs then
    runLoop env max_retries methodName ⟨cs, 0, 0, 0, 0, none⟩
  else
    match connect (env.connectResult 0) cs with
    | (cs1, some e) => (Except.error e, ⟨cs1, 0, 0, 0, 1, none⟩)
    | (cs1, none) => runLoop env max_retries methodName ⟨cs1, 0, 0, 0, 1, none⟩

/-- `KanboardClient.call_api` (client.py lines 154-162).  Its handlers re-raise
every `KanboardClientError` unchanged, and `_execute_with_retry` raises only
`KanboardClientError`s, so the wrapper returns the inner result unchanged. -/
def call_api (env : Env α) (max_retries : Nat) (methodName : String)
    (cs : ClientState) : Except KBError α × RunState :=
  execute_with_retry env max_retries methodName cs

/-- The `KanboardConfig` fields that `test_connection` reports. -/
structure KanboardConfig where
  url : String
  username : String

/-- The dictionary returned by `KanboardClient.test_connection`. -/
structure TestConnResult (α : Type) where
  connected : Bool
  user : Option α
  error : Option String
  server_url : String
  username : String

/-- `KanboardClient.test_connection` (client.py lines 164-180): calls
`call_api("get_me")`, catching every exception into the returned record. -/
def test_connection (env : Env α) (max_retries : Nat) (cfg : KanboardConfig)
    (cs : ClientState) : TestConnResult α × RunState :=
  match call_api env max_retries "get_me" cs with
  | (Except.ok v, st) =>
      ({ connected := true, user := some v, error := none,
         server_url := cfg.url, username := cfg.username }, st)
  | (Except.error e, st) =>
      ({ connected := false, user := none, error := some (kbMsg e),
         server_url := cfg.url, username := cfg.username }, st)

example : validate_url "http://h" = Except.ok "http://h/jsonrpc.php" := rfl
example : validate_url "http://h/" = Except.ok "http://h/jsonrpc.php" := rfl
example : validate_url "http://h/jsonrpc.php" = Except.ok "http://h/jsonrpc.php" := rfl
example : validate_url "http://hostjsonrpc.php"
    = Except.ok "http://hostjsonrpc.php/jsonrpc.php" := rfl
example : authIndicated "Server says Unauthorized user" = true := by decide
example : authIndicated "connection refused" = false := by decide

/-- Transport that fails with a connection-class `kanboard.ClientError`
(no authentication indication, no status code) on the first two invocations
and succeeds on the third; every `connect()` succeeds. -/
def connFailTwiceEnv : Env Nat :=
  { call := fun i =>
      if i < 2 then CallOutcome.fail (Exc.clientErr "connection refused" none)
      else CallOutcome.ok 7,
    connectResult := fun _ => ConnectResult.ok "admin" }

/-- Transport that always fails with an authentication-indicating
`kanboard.ClientError`. -/
def authFailEnv : Env Nat :=
  { call := fun _ => CallOutcome.fail (Exc.clientErr "401 Unauthorized" none),
    connectResult := fun _ => ConnectResult.ok "admin" }

example :
    (execute_with_retry authFailEnv 3 "get_me" ⟨true, true⟩).1 =
      Except.error (KBError.authentication "Authentication failed: 401 Unauthorized") := rfl

/-- Transport on which the requested method name does not resolve: every
attempt raises `AttributeError` from `getattr`, a non-`ClientError`
exception. -/
def missingMethodEnv : Env Nat :=
  { call := fun _ => CallOutcome.fail (Exc.other "no attribute get_nothing"),
    connectResult := fun _ => ConnectResult.ok "admin" }

theorem sleepUnlessLast_invocations (b : Bool) (st : RunState) :
    (sleepUnlessLast b st).invocations = st.invocations := by
  unfold sleepUnlessLast; split <;> rfl

theorem sleepUnlessLast_cs (b : Bool) (st : RunState) :
    (sleepUnlessLast b st).cs = st.cs := by
  unfold sleepUnlessLast; split <;> rfl

theorem sleepUnlessLast_reconnects (b : Bool) (st : RunState) :
    (sleepUnlessLast b st).reconnects = st.reconnects := by
  unfold sleepUnlessLast; split <;> rfl

theorem sleepUnlessLast_connects (b : Bool) (st : RunState) :
    (sleepUnlessLast b st).connects = st.connects := by
  unfold sleepUnlessLast; split <;> rfl

theorem sleepUnlessLast_lastExc (b : Bool) (st : RunState) :
    (sleepUnlessLast b st).lastExc = st.lastExc := by
  unfold sleepUnlessLast; split <;> rfl

/-- One retry-loop iteration that returns or raises performed exactly one
more transport invocation. -/
theorem attemptStep_done_invocations {α : Type} {env : Env α} {b : Bool}
    {st : RunState} {r : Except KBError α} {st1 : RunState}
    (h : attemptStep env b st = StepOut.done r st1) :
    st1.invocations = st.invocations + 1 := by
  unfold attemptStep at h
  split at h
  · split at h
    · cases h; rfl
    · split at h
      · split at h
        · cases h; rfl
        · split at h
          · cases h; rfl
          · simp at h
      · simp at h
  · simp at h

/-- One retry-loop iteration that falls through to the next attempt adds at
most one transport invocation. -/
theorem attemptStep_next_invocations {α : Type} {env : Env α} {b : Bool}
    {st : RunState} {st1 : RunState}
    (h : attemptStep env b st = StepOut.next st1) :
    st1.invocations ≤ st.invocations + 1 := by
  unfold attemptStep at h
  split at h
  · split at h
    · simp at h
    · split at h
      · split at h
        · simp at h
        · split at h
          · simp at h
          · cases h; simp [sleepUnlessLast_invocations]
      · cases h; simp [sleepUnlessLast_invocations]
  · cases h; simp [sleepUnlessLast_invocations]

/-- The retry loop performs at most `remaining` further transport
invocations. -/
theorem runAttempts_invocations_le {α : Type} (env : Env α) :
    ∀ (rem : Nat) (st : RunState),
      ((runAttempts env rem st).2).invocations ≤ st.invocations + rem := by
  intro rem
  induction rem with
  | zero => intro st; simp [runAttempts]
  | succ rem ih =>
      intro st
      rw [runAttempts]
      cases h : attemptStep env (rem == 0) st with
      | done r st1 =>
          have h1 := attemptStep_done_invocations h
          simp only
          omega
      | next st1 =>
          have h1 := attemptStep_next_invocations h
          have h2 := ih st1
          simp only
          omega

/-- The final state of `runLoop` is the final state of its loop. -/
theorem runLoop_snd {α : Type} (env : Env α) (mr : Nat) (m : String) (st0 : RunState) :
    (runLoop env mr m st0).2 = (runAttempts env (mr + 1) st0).2 := by
  unfold runLoop
  rcases h : runAttempts env (mr + 1) st0 with ⟨r, st⟩
  cases r <;> simp

/-- Unfolding equation for one loop iteration. -/
theorem runAttempts_succ {α : Type} (env : Env α) (rem : Nat) (st : RunState) :
    runAttempts env (rem + 1) st =
      match attemptStep env (rem == 0) st with
      | StepOut.done r st1 => (some r, st1)
      | StepOut.next st1 => runAttempts env rem st1 := rfl

/-- A loop iteration whose transport failure is retryable falls through to the
delay step: one more invocation, `last_exception` recorded, no reconnect. -/
theorem attemptStep_retryable {α : Type} {env : Env α} {st : RunState} {e : Exc}
    (b : Bool) (hhc : st.cs.hasClient = true)
    (hcall : env.call st.invocations = CallOutcome.fail e)
    (hr : retryableExc e = true) :
    attemptStep env b st = StepOut.next (sleepUnlessLast b
      { st with invocations := st.invocations + 1, lastExc := some e }) := by
  unfold attemptStep
  rw [hcall]
  cases e with
  | clientErr msg code =>
      simp only [retryableExc, Bool.and_eq_true, Bool.not_eq_true'] at hr
      simp [hhc, isClientErrorExc, excMsg, has4xxCode, hr.1, hr.2]
  | other msg => simp [hhc, isClientErrorExc]

/-- A loop iteration whose transport failure is an authentication-indicating
or 4xx-coded `kanboard.ClientError` raises immediately. -/
theorem attemptStep_clientErr_terminal {α : Type} {env : Env α} {st : RunState}
    {msg : String} {code : Option Int} (b : Bool)
    (hhc : st.cs.hasClient = true)
    (hcall : env.call st.invocations = CallOutcome.fail (Exc.clientErr msg code))
    (hcls : authIndicated msg = true ∨ code4xx code = true) :
    attemptStep env b st = StepOut.done
      (Except.error (if authIndicated msg = true then
          KBError.authentication ("Authentication failed: " ++ msg)
        else KBError.api ("API error: " ++ msg)))
      { st with invocations := st.invocations + 1,
                lastExc := some (Exc.clientErr msg code) } := by
  unfold attemptStep
  rw [hcall]
  by_cases hauth : authIndicated msg = true
  · simp [hhc, isClientErrorExc, excMsg, hauth]
  · have h4 : code4xx code = true := hcls.resolve_left hauth
    simp [hhc, isClientErrorExc, excMsg, has4xxCode, hauth, h4]

/-- C3: for every method name and transport behaviour, a single
`_execute_with_retry` invocation performs at most `max_retries + 1` transport
invocations. -/
theorem execute_invocations_le_max_retries_succ {α : Type} (env : Env α)
    (max_retries : Nat) (methodName : String) (cs : ClientState) :
    ((execute_with_retry env max_retries methodName cs).2).invocations ≤
      max_retries + 1 := by
  unfold execute_with_retry
  split
  · rw [runLoop_snd]
    simpa using runAttempts_invocations_le env (max_retries + 1) ⟨cs, 0, 0, 0, 0, none⟩
  · split
    · simp
    · rw [runLoop_snd]
      simpa using runAttempts_invocations_le env (max_retries + 1) ⟨_, 0, 0, 0, 1, none⟩

/-- C2: when the first transport invocation of a connected client fails with a
`kanboard.ClientError` classified as an authentication failure (message
contains "authentication" or "unauthorized", case-insensitively) or as a 4xx
API error, `_execute_with_retry` raises that error immediately: exactly one
transport invocation, no sleep, no reconnect, no further attempt. -/
theorem execute_auth_or_4xx_first_attempt {α : Type} (env : Env α) (mr : Nat)
    (m : String) (cs : ClientState) (msg : String) (code : Option Int)
    (hc : is_connected cs = true)
    (hcall : env.call 0 = CallOutcome.fail (Exc.clientErr msg code))
    (hcls : authIndicated msg = true ∨ code4xx code = true) :
    execute_with_retry env mr m cs =
      (Except.error (if authIndicated msg = true then
          KBError.authentication ("Authentication failed: " ++ msg)
        else KBError.api ("API error: " ++ msg)),
       ⟨cs, 1, 0, 0, 0, some (Exc.clientErr msg code)⟩) := by
  have hhc : cs.hasClient = true := by
    simp only [is_connected, Bool.and_eq_true] at hc
    exact hc.2
  have key := @attemptStep_clientErr_terminal α env
    ⟨cs, 0, 0, 0, 0, none⟩ msg code (mr == 0) hhc hcall hcls
  unfold execute_with_retry runLoop
  simp only [hc, if_true]
  rw [runAttempts_succ, key]

/-- Witness for `execute_auth_or_4xx_first_attempt`: with `max_retries = 3`
and a transport whose first attempt raises `kanboard.ClientError("401
Unauthorized")`, execute raises `KanboardAuthenticationError` after exactly
one invocation, with no sleep and no reconnect. -/
theorem execute_auth_first_attempt_concrete :
    execute_with_retry authFailEnv 3 "get_me" ⟨true, true⟩ =
      (Except.error (KBError.authentication "Authentication failed: 401 Unauthorized"),
       ⟨⟨true, true⟩, 1, 0, 0, 0, some (Exc.clientErr "401 Unauthorized" none)⟩) := by
  have h := execute_auth_or_4xx_first_attempt authFailEnv 3 "get_me" ⟨true, true⟩
    "401 Unauthorized" none rfl rfl (Or.inl (by decide))
  rw [h, if_pos (show authIndicated "401 Unauthorized" = true by decide)]
  rfl

/-- Composing one falling-through iteration with the rest of the loop. -/
theorem runAttempts_next {α : Type} {env : Env α} {rem : Nat} {st st2 : RunState}
    (h : attemptStep env (rem == 0) st = StepOut.next st2) :
    runAttempts env (rem + 1) st = runAttempts env rem st2 := by
  rw [runAttempts_succ, h]

/-- When every transport invocation fails retryably, the loop exhausts: no
return, `remaining` more invocations, client state and reconnect/connect
counters untouched, one sleep per non-final iteration, and `last_exception`
recording the failure of the final invocation. -/
theorem runAttempts_allFail {α : Type} (env : Env α)
    (hfail : ∀ i, ∃ e, env.call i = CallOutcome.fail e ∧ retryableExc e = true) :
    ∀ (rem : Nat) (st : RunState), st.cs.hasClient = true →
      (runAttempts env rem st).1 = none
      ∧ ((runAttempts env rem st).2).cs = st.cs
      ∧ ((runAttempts env rem st).2).invocations = st.invocations + rem
      ∧ ((runAttempts env rem st).2).reconnects = st.reconnects
      ∧ ((runAttempts env rem st).2).sleeps = st.sleeps + (rem - 1)
      ∧ ((runAttempts env rem st).2).connects = st.connects
      ∧ (∀ e, 0 < rem →
          env.call (st.invocations + (rem - 1)) = CallOutcome.fail e →
          ((runAttempts env rem st).2).lastExc = some e) := by
  intro rem
  induction rem with
  | zero =>
      intro st _
      refine ⟨rfl, rfl, by simp [runAttempts], rfl, by simp [runAttempts], rfl, ?_⟩
      intro e hpos _
      exact absurd hpos (by omega)
  | succ rem ih =>
      intro st hhc
      obtain ⟨e, hcall, hr⟩ := hfail st.invocations
      have hstep := @attemptStep_retryable α env st e (rem == 0) hhc hcall hr
      have hEq := runAttempts_next hstep
      have hhc2 : (sleepUnlessLast (rem == 0)
          { st with invocations := st.invocations + 1, lastExc := some e }).cs.hasClient
          = true := by
        rw [sleepUnlessLast_cs]; exact hhc
      have H := ih _ hhc2
      rw [hEq]
      obtain ⟨H1, H2, H3, H4, H5, H6, H7⟩ := H
      refine ⟨H1, ?_, ?_, ?_, ?_, ?_, ?_⟩
      · rw [H2, sleepUnlessLast_cs]
      · rw [H3, sleepUnlessLast_invocations]
        show st.invocations + 1 + rem = st.invocations + (rem + 1)
        omega
      · rw [H4, sleepUnlessLast_reconnects]
      · rw [H5]
        cases rem with
        | zero => simp [sleepUnlessLast]
        | succ k => simp [sleepUnlessLast]; omega
      · rw [H6, sleepUnlessLast_connects]
      · intro e2 _ hcall2
        cases rem with
        | zero =>
            have : e2 = e := by
              rw [Nat.add_zero] at hcall2
              have := hcall.symm.trans hcall2
              exact (CallOutcome.fail.inj this).symm
            subst this
            simp only [runAttempts]
            rw [sleepUnlessLast_lastExc]
        | succ k =>
            refine H7 e2 (by omega) ?_
            rw [sleepUnlessLast_invocations]
            have harith : st.invocations + 1 + (Nat.succ k - 1) =
                st.invocations + (Nat.succ k + 1 - 1) := by omega
            rw [harith]
            exact hcall2

/-- C4: if every attempt fails with a retryable kind, `_execute_with_retry`
raises a terminal error that wraps the last classified failure and whose
message names the invoked method and reports `max_retries + 1` attempts. -/
theorem execute_all_retryable_terminal {α : Type} (env : Env α) (mr : Nat)
    (m : String) (cs : ClientState)
    (hc : is_connected cs = true)
    (hfail : ∀ i, ∃ e, env.call i = CallOutcome.fail e ∧ retryableExc e = true) :
    ∃ e, env.call mr = CallOutcome.fail e
      ∧ ((execute_with_retry env mr m cs).2).invocations = mr + 1
      ∧ ((execute_with_retry env mr m cs).1 =
           Except.error (KBError.api ("API call " ++ m ++ " failed after " ++
             toString (mr + 1) ++ " attempts: " ++ excMsg e))
         ∨ (execute_with_retry env mr m cs).1 =
           Except.error (KBError.client ("Unexpected error in " ++ m ++ " after " ++
             toString (mr + 1) ++ " attempts: " ++ excMsg e))) := by
  have hhc : cs.hasClient = true := by
    simp only [is_connected, Bool.and_eq_true] at hc
    exact hc.2
  obtain ⟨e, hcall, hr⟩ := hfail mr
  obtain ⟨H1, _, H3, _, _, _, H7⟩ :=
    runAttempts_allFail env hfail (mr + 1) ⟨cs, 0, 0, 0, 0, none⟩ hhc
  have hlast : ((runAttempts env (mr + 1)
      (⟨cs, 0, 0, 0, 0, none⟩ : RunState)).2).lastExc = some e := by
    refine H7 e (by omega) ?_
    simpa using hcall
  have hexe : execute_with_retry env mr m cs =
      (Except.error (terminalError m mr (some e)),
       (runAttempts env (mr + 1) (⟨cs, 0, 0, 0, 0, none⟩ : RunState)).2) := by
    unfold execute_with_retry runLoop
    simp only [hc, if_true]
    rcases hrun : runAttempts env (mr + 1) (⟨cs, 0, 0, 0, 0, none⟩ : RunState)
      with ⟨ro, stf⟩
    rw [hrun] at H1 hlast
    simp only at H1 hlast
    subst H1
    simp [hlast]
  refine ⟨e, hcall, ?_, ?_⟩
  · rw [hexe]
    simpa using H3
  · cases hce : isClientErrorExc e with
    | true =>
        left
        rw [hexe]
        simp [terminalError, hce]
    | false =>
        right
        rw [hexe]
        simp [terminalError, hce]

/-- Transport that always fails with a retryable server-side
`kanboard.ClientError` (message without authentication indication, status
code 500). -/
def serverErrEnv : Env Nat :=
  { call := fun _ => CallOutcome.fail (Exc.clientErr "internal server error" (some 500)),
    connectResult := fun _ => ConnectResult.ok "admin" }

/-- Witness for `execute_all_retryable_terminal`: with `max_retries = 1` and a
transport always failing retryably, the terminal error names the method and
reports 2 attempts. -/
theorem execute_all_retryable_terminal_concrete :
    ∃ e, serverErrEnv.call 1 = CallOutcome.fail e
      ∧ ((execute_with_retry serverErrEnv 1 "get_version" ⟨true, true⟩).2).invocations = 1 + 1
      ∧ ((execute_with_retry serverErrEnv 1 "get_version" ⟨true, true⟩).1 =
           Except.error (KBError.api ("API call " ++ "get_version" ++ " failed after " ++
             toString (1 + 1) ++ " attempts: " ++ excMsg e))
         ∨ (execute_with_retry serverErrEnv 1 "get_version" ⟨true, true⟩).1 =
           Except.error (KBError.client ("Unexpected error in " ++ "get_version" ++ " after " ++
             toString (1 + 1) ++ " attempts: " ++ excMsg e))) :=
  execute_all_retryable_terminal serverErrEnv 1 "get_version" ⟨true, true⟩ rfl
    (fun _ => ⟨Exc.clientErr "internal server error" (some 500), rfl, by decide⟩)

/-- C10: when the requested method name does not resolve on the transport
handle, every attempt raises the same non-`ClientError` exception (modelled
by the environment), the failure is treated as the catch-all kind: all
`max_retries + 1` attempts run, with the inter-attempt delay between them and
no reconnect, and a `KanboardClientError` naming the method and the attempt
count is raised at the end. -/
theorem execute_missing_method_all_attempts {α : Type} (env : Env α) (mr : Nat)
    (m : String) (cs : ClientState) (attrMsg : String)
    (hc : is_connected cs = true)
    (hcall : ∀ i, env.call i = CallOutcome.fail (Exc.other attrMsg)) :
    ((execute_with_retry env mr m cs).2).invocations = mr + 1
    ∧ ((execute_with_retry env mr m cs).2).sleeps = mr
    ∧ ((execute_with_retry env mr m cs).2).reconnects = 0
    ∧ (execute_with_retry env mr m cs).1 =
        Except.error (KBError.client ("Unexpected error in " ++ m ++ " after " ++
          toString (mr + 1) ++ " attempts: " ++ attrMsg)) := by
  have hhc : cs.hasClient = true := by
    simp only [is_connected, Bool.and_eq_true] at hc
    exact hc.2
  have hfail : ∀ i, ∃ e, env.call i = CallOutcome.fail e ∧ retryableExc e = true :=
    fun i => ⟨Exc.other attrMsg, hcall i, rfl⟩
  obtain ⟨H1, _, H3, H4, H5, _, H7⟩ :=
    runAttempts_allFail env hfail (mr + 1) ⟨cs, 0, 0, 0, 0, none⟩ hhc
  have hlast : ((runAttempts env (mr + 1)
      (⟨cs, 0, 0, 0, 0, none⟩ : RunState)).2).lastExc = some (Exc.other attrMsg) := by
    refine H7 (Exc.other attrMsg) (by omega) ?_
    simpa using hcall mr
  have hexe : execute_with_retry env mr m cs =
      (Except.error (terminalError m mr (some (Exc.other attrMsg))),
       (runAttempts env (mr + 1) (⟨cs, 0, 0, 0, 0, none⟩ : RunState)).2) := by
    unfold execute_with_retry runLoop
    simp only [hc, if_true]
    rcases hrun : runAttempts env (mr + 1) (⟨cs, 0, 0, 0, 0, none⟩ : RunState)
      with ⟨ro, stf⟩
    rw [hrun] at H1 hlast
    simp only at H1 hlast
    subst H1
    simp [hlast]
  refine ⟨?_, ?_, ?_, ?_⟩
  · rw [hexe]; simpa using H3
  · rw [hexe]; simpa using H5
  · rw [hexe]; simpa using H4
  · rw [hexe]
    simp [terminalError, isClientErrorExc, excMsg]

/-- Witness for `execute_missing_method_all_attempts`: a transport without
the attribute `get_nothing`, `max_retries = 3`: 4 attempts, 3 sleeps, no
reconnect, terminal `KanboardClientError` naming method and count. -/
theorem execute_missing_method_concrete :
    ((execute_with_retry missingMethodEnv 3 "get_nothing" ⟨true, true⟩).2).invocations = 3 + 1
    ∧ ((execute_with_retry missingMethodEnv 3 "get_nothing" ⟨true, true⟩).2).sleeps = 3
    ∧ ((execute_with_retry missingMethodEnv 3 "get_nothing" ⟨true, true⟩).2).reconnects = 0
    ∧ (execute_with_retry missingMethodEnv 3 "get_nothing" ⟨true, true⟩).1 =
        Except.error (KBError.client ("Unexpected error in " ++ "get_nothing" ++ " after " ++
          toString (3 + 1) ++ " attempts: " ++ "no attribute get_nothing")) :=
  execute_missing_method_all_attempts missingMethodEnv 3 "get_nothing" ⟨true, true⟩
    "no attribute get_nothing" rfl (fun _ => rfl)

/-- C5: `test_connection` never raises: for every transport behaviour it
returns a record, with the connected flag true and the raw identity payload
when the underlying `call_api("get_me")` succeeds, and with the connected
flag false and the error message when it fails (connect failures and
exhausted retries included). -/
theorem test_connection_total_dichotomy {α : Type} (env : Env α) (mr : Nat)
    (cfg : KanboardConfig) (cs : ClientState) :
    (∃ v, (call_api env mr "get_me" cs).1 = Except.ok v
       ∧ (test_connection env mr cfg cs).1.connected = true
       ∧ (test_connection env mr cfg cs).1.user = some v
       ∧ (test_connection env mr cfg cs).1.error = none)
    ∨ (∃ e, (call_api env mr "get_me" cs).1 = Except.error e
       ∧ (test_connection env mr cfg cs).1.connected = false
       ∧ (test_connection env mr cfg cs).1.user = none
       ∧ (test_connection env mr cfg cs).1.error = some (kbMsg e)) := by
  rcases h : call_api env mr "get_me" cs with ⟨r, st⟩
  cases r with
  | ok v =>
      left
      refine ⟨v, ?_, ?_, ?_, ?_⟩ <;> simp [test_connection, h]
  | error e =>
      right
      refine ⟨e, ?_, ?_, ?_, ?_⟩ <;> simp [test_connection, h]

/-- C6: `disconnect` clears the transport handle and the authenticated flag
unconditionally, is idempotent, and leaves the client not connected. -/
theorem disconnect_clears_and_idempotent (s : ClientState) :
    disconnect s = { hasClient := false, connected := false }
    ∧ disconnect (disconnect s) = disconnect s
    ∧ is_connected (disconnect s) = false :=
  ⟨rfl, rfl, rfl⟩

/-- The flag invariant holds initially and is preserved by `connect` and by
`disconnect`, so it holds in every state the client can reach. -/
theorem flagInv_preserved (r : ConnectResult) (s : ClientState) :
    flagInv ⟨false, false⟩ = true
    ∧ (flagInv s = true → flagInv (connect r s).1 = true)
    ∧ flagInv (disconnect s) = true := by
  obtain ⟨h1, h2⟩ := s
  cases h1 <;> cases h2 <;> cases r <;>
    simp [flagInv, connect, disconnect]

/-- C9: a raising `connect` never writes the authenticated flag (first
conjunct, no hypothesis needed), so on any invariant-satisfying state —
`flagInv` holds in every reachable state by `flagInv_preserved` and
`execute_preserves_flagInv` — `is_connected` is false after a failed
connect even though the handle may have been assigned (as the
`kanboard.ClientError` case shows); it is true exactly after a successful
connect, and false again after `disconnect`. -/
theorem connect_failure_leaves_unauthenticated (r : ConnectResult)
    (s : ClientState) (m : String) (hinv : flagInv s = true) :
    (((connect r s).2).isSome = true → ((connect r s).1).connected = s.connected)
    ∧ (((connect r s).2).isSome = true → is_connected (connect r s).1 = false)
    ∧ ((connect r s).2 = none → is_connected (connect r s).1 = true)
    ∧ is_connected (disconnect (connect r s).1) = false
    ∧ (is_connected s = false →
        (connect (ConnectResult.clientErr m) s).1 =
          { hasClient := true, connected := false }) := by
  obtain ⟨h1, h2⟩ := s
  cases h1 <;> cases h2 <;> cases r <;>
    simp_all [flagInv, connect, is_connected, disconnect]

/-- Witness for `connect_failure_leaves_unauthenticated`: a `connect` on a
fresh client that fails with `kanboard.ClientError` assigns the handle but
leaves the client unauthenticated. -/
theorem connect_failure_unauthenticated_concrete :
    is_connected (connect (ConnectResult.clientErr "bad credentials")
        ⟨false, false⟩).1 = false
    ∧ (connect (ConnectResult.clientErr "bad credentials") ⟨false, false⟩).1 =
        { hasClient := true, connected := false } :=
  ⟨(connect_failure_leaves_unauthenticated
      (ConnectResult.clientErr "bad credentials") ⟨false, false⟩ "bad credentials"
      (by decide)).2.1 (by decide),
   (connect_failure_leaves_unauthenticated
      (ConnectResult.clientErr "bad credentials") ⟨false, false⟩ "bad credentials"
      (by decide)).2.2.2.2 (by decide)⟩

/-- A returning retry-loop iteration never changes the reconnect counter. -/
theorem attemptStep_done_reconnects {α : Type} {env : Env α} {b : Bool}
    {st : RunState} {r : Except KBError α} {st1 : RunState}
    (h : attemptStep env b st = StepOut.done r st1) :
    st1.reconnects = st.reconnects := by
  unfold attemptStep at h
  split at h
  · split at h
    · cases h; rfl
    · split at h
      · split at h
        · cases h; rfl
        · split at h
          · cases h; rfl
          · simp at h
      · simp at h
  · simp at h

/-- A falling-through retry-loop iteration never changes the reconnect
counter: the branch that would reconnect repeats the first clause's
`isinstance` test and is unreachable. -/
theorem attemptStep_next_reconnects {α : Type} {env : Env α} {b : Bool}
    {st : RunState} {st1 : RunState}
    (h : attemptStep env b st = StepOut.next st1) :
    st1.reconnects = st.reconnects := by
  unfold attemptStep at h
  split at h
  · split at h
    · simp at h
    · split at h
      · split at h
        · simp at h
        · split at h
          · simp at h
          · cases h; simp [sleepUnlessLast_reconnects]
      · cases h; simp [sleepUnlessLast_reconnects]
  · cases h; simp [sleepUnlessLast_reconnects]

/-- The retry loop never reconnects, whatever the transport does. -/
theorem runAttempts_reconnects {α : Type} (env : Env α) :
    ∀ (rem : Nat) (st : RunState),
      ((runAttempts env rem st).2).reconnects = st.reconnects := by
  intro rem
  induction rem with
  | zero => intro st; rfl
  | succ rem ih =>
      intro st
      rw [runAttempts]
      cases h : attemptStep env (rem == 0) st with
      | done r st1 =>
          simpa using attemptStep_done_reconnects h
      | next st1 =>
          simp only
          rw [ih st1]
          exact attemptStep_next_reconnects h

/-- `_execute_with_retry` performs zero reconnects on every input: the
reconnect branch of the source (client.py lines 124-133) catches the same
exception class as the branch before it and is unreachable. -/
theorem execute_reconnects_zero {α : Type} (env : Env α) (mr : Nat)
    (m : String) (cs : ClientState) :
    ((execute_with_retry env mr m cs).2).reconnects = 0 := by
  unfold execute_with_retry
  split
  · rw [runLoop_snd, runAttempts_reconnects]
  · split
    · rfl
    · rw [runLoop_snd, runAttempts_reconnects]

/-- A returning retry-loop iteration leaves the client state untouched. -/
theorem attemptStep_done_cs {α : Type} {env : Env α} {b : Bool}
    {st : RunState} {r : Except KBError α} {st1 : RunState}
    (h : attemptStep env b st = StepOut.done r st1) :
    st1.cs = st.cs := by
  unfold attemptStep at h
  split at h
  · split at h
    · cases h; rfl
    · split at h
      · split at h
        · cases h; rfl
        · split at h
          · cases h; rfl
          · simp at h
      · simp at h
  · simp at h

/-- A falling-through retry-loop iteration leaves the client state untouched:
the only branch that would mutate it (the reconnect branch) is
unreachable. -/
theorem attemptStep_next_cs {α : Type} {env : Env α} {b : Bool}
    {st : RunState} {st1 : RunState}
    (h : attemptStep env b st = StepOut.next st1) :
    st1.cs = st.cs := by
  unfold attemptStep at h
  split at h
  · split at h
    · simp at h
    · split at h
      · split at h
        · simp at h
        · split at h
          · simp at h
          · cases h; simp [sleepUnlessLast_cs]
      · cases h; simp [sleepUnlessLast_cs]
  · cases h; simp [sleepUnlessLast_cs]

/-- The retry loop leaves the client state untouched, whatever the transport
does. -/
theorem runAttempts_cs {α : Type} (env : Env α) :
    ∀ (rem : Nat) (st : RunState),
      ((runAttempts env rem st).2).cs = st.cs := by
  intro rem
  induction rem with
  | zero => intro st; rfl
  | succ rem ih =>
      intro st
      rw [runAttempts]
      cases h : attemptStep env (rem == 0) st with
      | done r st1 =>
          simpa using attemptStep_done_cs h
      | next st1 =>
          simp only
          rw [ih st1]
          exact attemptStep_next_cs h

/-- The flag invariant is preserved by a full `_execute_with_retry` run, so
together with `flagInv_preserved` it holds in every reachable state. -/
theorem execute_preserves_flagInv {α : Type} (env : Env α) (mr : Nat)
    (m : String) (cs : ClientState) (hinv : flagInv cs = true) :
    flagInv ((execute_with_retry env mr m cs).2).cs = true := by
  unfold execute_with_retry
  split
  · rw [runLoop_snd, runAttempts_cs]
    exact hinv
  · have hpres := (flagInv_preserved (env.connectResult 0) cs).2.1 hinv
    rcases hcn : connect (env.connectResult 0) cs with ⟨cs1, err⟩
    rw [hcn] at hpres
    simp only at hpres
    cases err with
    | none =>
        simp only
        rw [runLoop_snd, runAttempts_cs]
        exact hpres
    | some e =>
        exact hpres

/-- C1 (scenario from the spec, evaluated on the code): `max_retries = 2`,
zero-length retry delay, transport failing with a connection-class
`kanboard.ClientError` on attempts 1 and 2 and succeeding on attempt 3.
`_execute_with_retry` returns the success value after exactly 3 transport
invocations — but performs 0 reconnects (third state component), not the 2
the specification describes, because the reconnect branch is unreachable. -/
theorem execute_conn_errors_scenario_no_reconnect :
    execute_with_retry connFailTwiceEnv 2 "get_board" ⟨true, true⟩ =
      (Except.ok 7,
       ⟨⟨true, true⟩, 3, 0, 2, 0, some (Exc.clientErr "connection refused" none)⟩) := rfl

theorem isPrefixOf_self_append (l t : List Char) :
    List.isPrefixOf l (l ++ t) = true := by
  induction l with
  | nil => simp
  | cons a as ih => simp [List.isPrefixOf, ih]

theorem isPrefixOf_append_right (p : List Char) :
    ∀ (s t : List Char), List.isPrefixOf p s = true →
      List.isPrefixOf p (s ++ t) = true := by
  induction p with
  | nil => intro s t _; simp
  | cons a as ih =>
      intro s t h
      cases s with
      | nil => simp [List.isPrefixOf] at h
      | cons b bs =>
          simp only [List.isPrefixOf, Bool.and_eq_true] at h
          simp only [List.cons_append, List.isPrefixOf, Bool.and_eq_true]
          exact ⟨h.1, ih bs t h.2⟩

theorem isPrefixOf_append_left (l p s : List Char) :
    List.isPrefixOf (l ++ p) (l ++ s) = List.isPrefixOf p s := by
  induction l with
  | nil => rfl
  | cons a as ih => simp [List.isPrefixOf, ih]

theorem isPrefixOf_of_append (p : List Char) :
    ∀ (q s : List Char), List.isPrefixOf (p ++ q) s = true →
      List.isPrefixOf p s = true := by
  induction p with
  | nil => intro q s _; simp
  | cons a as ih =>
      intro q s h
      cases s with
      | nil => simp [List.isPrefixOf] at h
      | cons b bs =>
          simp only [List.cons_append, List.isPrefixOf, Bool.and_eq_true] at h
          simp only [List.isPrefixOf, Bool.and_eq_true]
          exact ⟨h.1, ih q bs h.2⟩

theorem isPrefixOf_cons_head {a : Char} {l s : List Char}
    (h : List.isPrefixOf (a :: l) s = true) : ∃ rest, s = a :: rest := by
  cases s with
  | nil => simp [List.isPrefixOf] at h
  | cons b bs =>
      simp only [List.isPrefixOf, Bool.and_eq_true, beq_iff_eq] at h
      exact ⟨bs, by rw [h.1]⟩

/-- A URL with an accepted scheme is non-empty. -/
theorem scheme_ne_empty (v : String)
    (hs : List.isPrefixOf "http://".data v.data = true ∨
          List.isPrefixOf "https://".data v.data = true) : ¬(v = "") := by
  intro h
  subst h
  rcases hs with h | h <;> exact absurd h (by decide)

/-- The scheme test of `validate_url`, as the disjunction of its two cases. -/
theorem scheme_or (v : String)
    (hs : List.isPrefixOf "http://".data v.data = true ∨
          List.isPrefixOf "https://".data v.data = true) :
    (List.isPrefixOf "http://".data v.data ||
     List.isPrefixOf "https://".data v.data) = true := by
  rcases hs with h | h <;> simp [h]

/-- Appending preserves the scheme test. -/
theorem scheme_or_append (v t : String)
    (hor : (List.isPrefixOf "http://".data v.data ||
            List.isPrefixOf "https://".data v.data) = true) :
    (List.isPrefixOf "http://".data (v ++ t).data ||
     List.isPrefixOf "https://".data (v ++ t).data) = true := by
  rw [String.data_append]
  simp only [Bool.or_eq_true] at hor ⊢
  rcases hor with h | h
  · exact Or.inl (isPrefixOf_append_right _ _ _ h)
  · exact Or.inr (isPrefixOf_append_right _ _ _ h)

/-- Appending a non-empty string yields a non-empty string. -/
theorem append_ne_empty (v t : String) (ht : t.data ≠ []) : ¬(v ++ t = "") := by
  intro h
  have hd : v.data ++ t.data = [] := by
    rw [← String.data_append, h]
  exact ht (List.append_eq_nil.mp hd).2

/-- A string ending in the slash-prefixed RPC suffix also ends in the bare
suffix. -/
theorem rpc_suffix_of_slash_rpc_suffix (v : String)
    (h : List.isSuffixOf "/jsonrpc.php".data v.data = true) :
    List.isSuffixOf "jsonrpc.php".data v.data = true := by
  simp only [List.isSuffixOf] at h ⊢
  have hEq : List.reverse "/jsonrpc.php".data =
      List.reverse "jsonrpc.php".data ++ ['/'] := by decide
  rw [hEq] at h
  exact isPrefixOf_of_append _ _ _ h

/-- A string ending in "/" does not end in "/jsonrpc.php". -/
theorem no_slash_rpc_suffix_of_slash (v : String)
    (h : List.isSuffixOf "/".data v.data = true) :
    List.isSuffixOf "/jsonrpc.php".data v.data = false := by
  simp only [List.isSuffixOf] at h ⊢
  have hhd : List.reverse "/".data = ['/'] := by decide
  rw [hhd] at h
  obtain ⟨rest, hrest⟩ := isPrefixOf_cons_head h
  have hEq : List.reverse "/jsonrpc.php".data =
      'p' :: List.reverse "/jsonrpc.ph".data := by decide
  rw [hEq, hrest]
  simp [List.isPrefixOf]

/-- Appending text to a string ending in "/" produces a string ending in
"/" followed by that text: here, `v ++ "jsonrpc.php"` ends in
"/jsonrpc.php". -/
theorem slash_rpc_suffix_of_append_rpc (v : String)
    (h : List.isSuffixOf "/".data v.data = true) :
    List.isSuffixOf "/jsonrpc.php".data (v ++ "jsonrpc.php").data = true := by
  simp only [List.isSuffixOf] at h ⊢
  have hhd : List.reverse "/".data = ['/'] := by decide
  rw [hhd] at h
  rw [String.data_append, List.reverse_append]
  have hEq : List.reverse "/jsonrpc.php".data =
      List.reverse "jsonrpc.php".data ++ ['/'] := by decide
  rw [hEq, isPrefixOf_append_left]
  exact h

/-- `v ++ "/jsonrpc.php"` ends in "/jsonrpc.php". -/
theorem slash_rpc_suffix_of_append_slash_rpc (v : String) :
    List.isSuffixOf "/jsonrpc.php".data (v ++ "/jsonrpc.php").data = true := by
  simp only [List.isSuffixOf]
  rw [String.data_append, List.reverse_append]
  exact isPrefixOf_self_append _ _

/-- C7 (amended): for a URL with an accepted scheme, `validate_url` appends
"/jsonrpc.php" when the URL ends neither in "jsonrpc.php" nor in "/", and
returns the URL unchanged when it already ends in "/jsonrpc.php" — the
suffix the source checks includes the leading slash. -/
theorem validate_url_normalization_amended (v : String)
    (hs : List.isPrefixOf "http://".data v.data = true ∨
          List.isPrefixOf "https://".data v.data = true) :
    (List.isSuffixOf "jsonrpc.php".data v.data = false →
       List.isSuffixOf "/".data v.data = false →
       validate_url v = Except.ok (v ++ "/jsonrpc.php"))
    ∧ (List.isSuffixOf "/jsonrpc.php".data v.data = true →
       validate_url v = Except.ok v) := by
  have hne := scheme_ne_empty v hs
  have hor := scheme_or v hs
  constructor
  · intro hrs hsl
    have h1 : List.isSuffixOf "/jsonrpc.php".data v.data = false := by
      cases hx : List.isSuffixOf "/jsonrpc.php".data v.data with
      | false => rfl
      | true =>
          have := rpc_suffix_of_slash_rpc_suffix v hx
          rw [this] at hrs
          exact absurd hrs (by simp)
    simp [validate_url, hne, hor, h1, hsl]
  · intro h2
    simp [validate_url, hne, hor, h2]

/-- Counterexample to C7 as stated: "http://hostjsonrpc.php" ends with the
suffix "jsonrpc.php", yet `validate_url` does not return it unchanged — it
appends "/jsonrpc.php", because the source checks for the suffix with its
leading slash. -/
theorem validate_url_bare_rpc_suffix_changed :
    List.isSuffixOf "jsonrpc.php".data "http://hostjsonrpc.php".data = true
    ∧ validate_url "http://hostjsonrpc.php" =
        Except.ok ("http://hostjsonrpc.php" ++ "/jsonrpc.php")
    ∧ ("http://hostjsonrpc.php" ++ "/jsonrpc.php") ≠ "http://hostjsonrpc.php" :=
  ⟨by decide, rfl, by decide⟩

/-- Witness for `validate_url_normalization_amended` at concrete URLs. -/
theorem validate_url_normalization_amended_concrete :
    validate_url "https://kb.example.com" =
      Except.ok ("https://kb.example.com" ++ "/jsonrpc.php")
    ∧ validate_url "https://kb.example.com/jsonrpc.php" =
        Except.ok "https://kb.example.com/jsonrpc.php" :=
  ⟨(validate_url_normalization_amended "https://kb.example.com"
      (Or.inr (by decide))).1 (by decide) (by decide),
   (validate_url_normalization_amended "https://kb.example.com/jsonrpc.php"
      (Or.inr (by decide))).2 (by decide)⟩

/-- C8: for a URL with an accepted scheme that ends with "/" (and hence not
with "jsonrpc.php"), `validate_url` appends exactly "jsonrpc.php" with no
additional slash; and `validate_url` is idempotent on every accepted
input. -/
theorem validate_url_trailing_slash_and_idempotent (v : String)
    (hs : List.isPrefixOf "http://".data v.data = true ∨
          List.isPrefixOf "https://".data v.data = true) :
    (List.isSuffixOf "/".data v.data = true →
       List.isSuffixOf "jsonrpc.php".data v.data = false →
       validate_url v = Except.ok (v ++ "jsonrpc.php"))
    ∧ (∀ r, validate_url v = Except.ok r → validate_url r = Except.ok r) := by
  have hne := scheme_ne_empty v hs
  have hor := scheme_or v hs
  constructor
  · intro hsl _
    have h1 := no_slash_rpc_suffix_of_slash v hsl
    simp [validate_url, hne, hor, h1, hsl]
  · intro r hr
    rw [validate_url] at hr
    rw [if_neg hne] at hr
    rw [if_neg (by simp [hor])] at hr
    by_cases hrpc : List.isSuffixOf "/jsonrpc.php".data v.data = true
    · rw [if_neg (by simp [hrpc])] at hr
      obtain rfl : v = r := by
        injection hr
      simp [validate_url, hne, hor, hrpc]
    · have hrpc' : List.isSuffixOf "/jsonrpc.php".data v.data = false :=
        Bool.not_eq_true _ ▸ (by simpa using hrpc)
      rw [if_pos (by simp [hrpc'])] at hr
      by_cases hsl : List.isSuffixOf "/".data v.data = true
      · rw [if_pos hsl] at hr
        obtain rfl : v ++ "jsonrpc.php" = r := by
          injection hr
        have hne2 := append_ne_empty v "jsonrpc.php" (by decide)
        have hor2 := scheme_or_append v "jsonrpc.php" hor
        have hsfx := slash_rpc_suffix_of_append_rpc v hsl
        rw [validate_url, if_neg hne2, if_neg (by rw [hor2]; decide),
          if_neg (by rw [hsfx]; decide)]
      · rw [if_neg hsl] at hr
        obtain rfl : v ++ "/jsonrpc.php" = r := by
          injection hr
        have hne2 := append_ne_empty v "/jsonrpc.php" (by decide)
        have hor2 := scheme_or_append v "/jsonrpc.php" hor
        have hsfx := slash_rpc_suffix_of_append_slash_rpc v
        rw [validate_url, if_neg hne2, if_neg (by rw [hor2]; decide),
          if_neg (by rw [hsfx]; decide)]

/-- Witness for `validate_url_trailing_slash_and_idempotent`: a URL with a
trailing slash gets "jsonrpc.php" appended without an extra slash, and
re-validating the result is a fixed point. -/
theorem validate_url_trailing_slash_concrete :
    validate_url "http://h/" = Except.ok ("http://h/" ++ "jsonrpc.php")
    ∧ validate_url ("http://h/" ++ "jsonrpc.php") =
        Except.ok ("http://h/" ++ "jsonrpc.php") := by
  have h := validate_url_trailing_slash_and_idempotent "http://h/" (Or.inl (by decide))
  have h1 := h.1 (by decide) (by decide)
  exact ⟨h1, h.2 _ h1⟩
